import Mathlib

/-!
Verification of the protocol-bridge core of the F* VS Code assistant
language server (src/server/src/server.ts).

The development shallowly embeds the non-boilerplate logic of the server:

* JSON values flowing on the wire, with JavaScript-style property access
  modelled by `Option` (a `none` marks an access that would be `undefined`
  or would throw at run time);
* the coordinate remap `mkPosition`;
* the translator handlers `handleIdeProgress` and `handleIdeFailure`;
* the line-splitting response dispatcher `handleOneResponseForDocument`
  and `handleFStarResponseForDocument`;
* the query encoder `sendRequestForDocument` and the document lifecycle
  handlers `onDidOpen`, `onDidClose`, `onDidChangeContent` acting on the
  server state (`documentSettings`, `documentState`, spawned processes).

Effects (notifications, diagnostics, writes to a subprocess stdin) are
made explicit as returned event lists.
-/

namespace FStarAssistant

/-- JSON values, the data flowing between the server and `fstar.exe`.
Numbers are modelled as integers: every number the bridge manipulates is a
line or column index or a query counter. -/
inductive Json where
  | null : Json
  | bool (b : Bool) : Json
  | num (n : Int) : Json
  | str (s : String) : Json
  | arr (elems : List Json) : Json
  | obj (fields : List (String × Json)) : Json
  deriving Repr

/-- JavaScript property access `j.k`: a value on an object key, `none` when
the key is missing or the receiver is not an object (the JS `undefined`). -/
def Json.get : Json → String → Option Json
  | .obj fields, k => (fields.find? (fun p => p.1 = k)).map (fun p => p.2)
  | _, _ => none

/-- JavaScript truthiness of a possibly-undefined value, used by the
`if (!r.response)` guard of the dispatcher. -/
def Json.truthy : Option Json → Bool
  | none => false
  | some .null => false
  | some (.bool b) => b
  | some (.num n) => decide (n ≠ 0)
  | some (.str s) => decide (s ≠ "")
  | some (.arr _) => true
  | some (.obj _) => true

/-- Test whether the field `k` of `j` is the string `s`
(`r.kind == "protocol-info"` style comparisons: a missing field compares
unequal to every string). -/
def Json.fieldIs (j : Json) (k s : String) : Bool :=
  match j.get k with
  | some (.str t) => decide (t = s)
  | _ => false

/-- Whether the value is a JSON object. -/
def Json.isObj : Json → Bool
  | .obj _ => true
  | _ => false

/-- Set field `k` of an object to `v` (`msg["query-id"] = ...`): replaces
an existing binding, appends otherwise; a non-object is left unchanged. -/
def Json.setField : Json → String → Json → Json
  | .obj fields, k, v => .obj (setList fields k v)
  | j, _, _ => j
where
  setList : List (String × Json) → String → Json → List (String × Json)
    | [], k, v => [(k, v)]
    | (k', v') :: rest, k, v =>
        if k' = k then (k, v) :: rest else (k', v') :: setList rest k v

/-- Read a JSON array of numbers as a list of integers; `none` when the
value is not an array of numbers (an access on it would misbehave in JS). -/
def Json.asPosList : Json → Option (List Int)
  | .arr l => l.mapM (fun j => match j with | .num n => some n | _ => none)
  | _ => none

/-- An editor-facing position: 0-based line and column. -/
structure Position where
  line : Int
  character : Int
  deriving Repr, DecidableEq

/-- Mirror of `Position.create` of the LSP library. -/
def Position.create (line character : Int) : Position :=
  { line := line, character := character }

/-- An editor-facing range. The source field named `end` is rendered `fin`
(`end` is a reserved word). -/
structure Range where
  start : Position
  fin : Position
  deriving Repr, DecidableEq

/-- Mirror of `Range.create` of the LSP library. -/
def Range.create (start fin : Position) : Range :=
  { start := start, fin := fin }

/-- Source `mkPosition(pos: number[])`: F* line numbers begin at 1, so the
line is unskewed by one while the column is kept. The index accesses
`pos[0]` and `pos[1]` are option-returning in the embedding. -/
def mkPosition (pos : List Int) : Option Position := do
  let l ← pos[0]?
  let c ← pos[1]?
  pure (Position.create (l - 1) c)

/-- Diagnostic severities of the LSP library (only `error` is used). -/
inductive DiagnosticSeverity where
  | error : DiagnosticSeverity
  | warning : DiagnosticSeverity
  | information : DiagnosticSeverity
  | hint : DiagnosticSeverity
  deriving Repr, DecidableEq

/-- An editor-facing diagnostic. -/
structure Diagnostic where
  severity : DiagnosticSeverity
  range : Range
  message : String
  deriving Repr, DecidableEq

/-- Argument of one `connection.sendDiagnostics` call. -/
structure PublishDiagnosticsParams where
  uri : String
  diagnostics : List Diagnostic
  deriving Repr, DecidableEq

/-- Payload of the custom `statusOk` notification. -/
structure StatusOkMessage where
  uri : String
  ranges : List Range
  deriving Repr, DecidableEq

/-- Source interface `IdeError`: the element type of a failure response
payload. The source field named `end` is rendered `fin`. -/
structure IdeRange where
  beg : List Int
  fin : List Int
  deriving Repr, DecidableEq

/-- Source interface `IdeError`. -/
structure IdeError where
  message : String
  ranges : List IdeRange
  deriving Repr, DecidableEq

/-- The `forEach` body of `handleIdeFailure`: the diagnostics publication
for one error entry, built from the first range of the entry. The
accesses `err.ranges[0]`, `rng.beg[i]`, `rng.end[i]` are
option-returning; a `none` marks the run-time error the unguarded source
would hit. -/
def failurePublication (uri : String) (err : IdeError) :
    Option PublishDiagnosticsParams := do
  let rng ← err.ranges[0]?
  let s ← mkPosition rng.beg
  let e ← mkPosition rng.fin
  pure { uri := uri,
         diagnostics := [{ severity := DiagnosticSeverity.error,
                           range := Range.create s e,
                           message := err.message }] }

/-- Source `handleIdeFailure`: one error-severity diagnostic per entry,
published per entry (one `sendDiagnostics` call each) to the document
URI. -/
def handleIdeFailure (uri : String) (response : List IdeError) :
    Option (List PublishDiagnosticsParams) :=
  response.mapM (failurePublication uri)

/-- Source `handleIdeProgress`: on stage `full-buffer-fragment-ok` it
remaps `contents.ranges.beg` and `contents.ranges.end` and emits a single
statusOk notification; every other stage is a no-op. The argument is the
(possibly absent) `r.contents` of the routed message; accesses through it
are option-returning. -/
def handleIdeProgress (uri : String) (contents : Option Json) :
    Option (List StatusOkMessage) := do
  let c ← contents
  if c.fieldIs "stage" "full-buffer-fragment-ok" then
    let rng ← c.get "ranges"
    let beg ← (rng.get "beg").bind Json.asPosList
    let fin ← (rng.get "end").bind Json.asPosList
    let s ← mkPosition beg
    let e ← mkPosition fin
    pure [{ uri := uri, ranges := [Range.create s e] }]
  else
    pure []

/-- The routing decision the dispatcher takes for one parsed message:
which handler an inbound line is handed to, with the payload the handler
receives. `failureNoPayload` records the early return on a falsy
`r.response`; `unhandled` records the logged fall-through branch. -/
inductive RouteEvent where
  | protocolInfo : RouteEvent
  | progress (contents : Option Json) : RouteEvent
  | failureNoPayload : RouteEvent
  | failure (response : Json) : RouteEvent
  | success (response : Option Json) : RouteEvent
  | unhandled : RouteEvent
  deriving Repr

/-- Source `handleOneResponseForDocument`: an empty segment is skipped
(`some none`), a nonempty one is parsed and routed on its `kind` field.
`JSON.parse` is an external library primitive, abstracted as the `parse`
argument; its uncaught exception on invalid input is the outer `none`. -/
def handleOneResponseForDocument (parse : String → Option Json)
    (data : String) : Option (Option RouteEvent) :=
  if data = "" then some none
  else
    match parse data with
    | none => none
    | some r =>
      if r.fieldIs "kind" "protocol-info" then
        some (some RouteEvent.protocolInfo)
      else if r.fieldIs "kind" "message" && r.fieldIs "level" "progress" then
        some (some (RouteEvent.progress (r.get "contents")))
      else if r.fieldIs "kind" "response" && r.fieldIs "status" "failure" then
        if !(Json.truthy (r.get "response")) then
          some (some RouteEvent.failureNoPayload)
        else
          some (some (RouteEvent.failure ((r.get "response").getD Json.null)))
      else if r.fieldIs "kind" "response" && r.fieldIs "status" "success" then
        some (some (RouteEvent.success (r.get "response")))
      else
        some (some RouteEvent.unhandled)

/-- The `lines.forEach` loop of `handleFStarResponseForDocument`: segments
are processed in order; an uncaught parse exception aborts the loop, the
`Bool` of the result records whether that happened. -/
def dispatchLines (parse : String → Option Json) :
    List String → List RouteEvent × Bool
  | [] => ([], false)
  | l :: ls =>
    match handleOneResponseForDocument parse l with
    | none => ([], true)
    | some none => dispatchLines parse ls
    | some (some ev) =>
      let rest := dispatchLines parse ls
      (ev :: rest.1, rest.2)

/-- The JavaScript `String.prototype.split` on a single newline character,
modelled structurally on the character list: a string with N newlines
yields N + 1 segments, a trailing newline hence a trailing empty
segment. -/
def splitNl : List Char → List (List Char)
  | [] => [[]]
  | c :: cs =>
    match splitNl cs with
    | [] => [[c]]
    | h :: t => if c = '\n' then [] :: h :: t else (c :: h) :: t

/-- The segments of a raw chunk after the newline split of
`handleFStarResponseForDocument`. -/
def splitOnNewlines (data : String) : List String :=
  (splitNl data.data).map (fun l => String.mk l)

/-- Source `handleFStarResponseForDocument`: splits the raw chunk on
newlines and feeds every segment to `handleOneResponseForDocument`. -/
def handleFStarResponseForDocument (parse : String → Option Json)
    (data : String) : List RouteEvent × Bool :=
  dispatchLines parse (splitOnNewlines data)

/-- Source `IDEState`: one per open document — the handle of the spawned
`fstar.exe` subprocess (a process id here) and the last query id used. -/
structure IDEState where
  fstar_ide : Nat
  last_query_id : Int
  deriving Repr, DecidableEq

/-- The mutable server state: the settings cache keys
(`documentSettings`), the session registry (`documentState`, a Map
modelled as an association list with Map.set semantics), the set of
spawned subprocesses still running, and a fresh process id supply. -/
structure ServerState where
  documentSettings : List String
  documentState : List (String × IDEState)
  running : List Nat
  nextPid : Nat
  deriving Repr

/-- Map.get on the session registry. -/
def lookupState (m : List (String × IDEState)) (uri : String) :
    Option IDEState :=
  (m.find? (fun p => p.1 = uri)).map (fun p => p.2)

/-- Map.set on the session registry: replaces the binding when the key is
present, appends otherwise. -/
def setState (m : List (String × IDEState)) (uri : String) (v : IDEState) :
    List (String × IDEState) :=
  match m with
  | [] => [(uri, v)]
  | (k, v') :: rest =>
    if k = uri then (uri, v) :: rest else (k, v') :: setState rest uri v

/-- Source `sendRequestForDocument`: a no-op when the document has no
session; otherwise increments the session counter, stamps
`query-id` with the stringified new counter value and writes the message
(then a newline) to the subprocess stdin. Serialization is abstracted:
the write list carries the stamped JSON object per target process. -/
def sendRequestForDocument (st : ServerState) (uri : String) (msg : Json) :
    ServerState × List (Nat × Json) :=
  match lookupState st.documentState uri with
  | none => (st, [])
  | some doc_state =>
    let qid := doc_state.last_query_id
    let doc_state' := { doc_state with last_query_id := qid + 1 }
    let stamped := msg.setField "query-id" (Json.str (toString (qid + 1)))
    ({ st with documentState := setState st.documentState uri doc_state' },
      [(doc_state.fstar_ide, stamped)])

/-- Iterated sends to the same document, collecting the writes in order. -/
def sendMany (st : ServerState) (uri : String) :
    List Json → ServerState × List (Nat × Json)
  | [] => (st, [])
  | msg :: msgs =>
    let r1 := sendRequestForDocument st uri msg
    let rest := sendMany r1.1 uri msgs
    (rest.1, r1.2 ++ rest.2)

/-- Source `documents.onDidOpen`: spawns `fstar.exe --ide` for the
document, registers the session with counter 0 (Map.set), and sends the
initial `vfs-add` query carrying the document text. -/
def onDidOpen (st : ServerState) (uri : String) (text : String) :
    ServerState × List (Nat × Json) :=
  let pid := st.nextPid
  let st1 : ServerState :=
    { st with running := pid :: st.running,
              nextPid := pid + 1,
              documentState := setState st.documentState uri
                { fstar_ide := pid, last_query_id := 0 } }
  let vfs_add := Json.obj
    [("query", Json.str "vfs-add"),
     ("args", Json.obj [("filename", Json.null),
                        ("contents", Json.str text)])]
  sendRequestForDocument st1 uri vfs_add

/-- Source `documents.onDidClose`: only the settings cache entry is
deleted; the session registry and the subprocess are untouched. -/
def onDidClose (st : ServerState) (uri : String) : ServerState :=
  { st with documentSettings := st.documentSettings.filter (fun k => k ≠ uri) }

/-- Effects of `validateFStarDocument` other than subprocess writes. -/
inductive ClientEvent where
  | publishDiagnostics (p : PublishDiagnosticsParams) : ClientEvent
  | statusClear (uri : String) : ClientEvent
  deriving Repr

/-- Source `validateFStarDocument` (the `onDidChangeContent` body): clears
the diagnostics of the document, sends a statusClear notification, then
sends a `full-buffer` query with the whole document text. -/
def validateFStarDocument (st : ServerState) (uri : String) (text : String) :
    ServerState × List ClientEvent × List (Nat × Json) :=
  let push_context := Json.obj
    [("query", Json.str "full-buffer"),
     ("args", Json.obj [("kind", Json.str "full"),
                        ("code", Json.str text),
                        ("line", Json.num 0),
                        ("column", Json.num 0)])]
  let r := sendRequestForDocument st uri push_context
  (r.1,
   [ClientEvent.publishDiagnostics { uri := uri, diagnostics := [] },
    ClientEvent.statusClear uri],
   r.2)

/-- The server state at startup: empty caches, no sessions, no spawned
processes. -/
def initialState : ServerState :=
  { documentSettings := [], documentState := [], running := [], nextPid := 0 }

/-- States of the server reachable from startup through the document
lifecycle events. -/
inductive Reachable : ServerState → Prop where
  | init : Reachable initialState
  | open_ {st : ServerState} (uri text : String) (h : Reachable st) :
      Reachable (onDidOpen st uri text).1
  | close {st : ServerState} (uri : String) (h : Reachable st) :
      Reachable (onDidClose st uri)
  | change {st : ServerState} (uri text : String) (h : Reachable st) :
      Reachable (validateFStarDocument st uri text).1

/-- Well-formedness of one failure entry: a first range exists and both of
its positions have at least a line and a column component. -/
def IdeError.wf (err : IdeError) : Prop :=
  err.ranges ≠ [] ∧
    2 ≤ (err.ranges.headD { beg := [], fin := [] }).beg.length ∧
    2 ≤ (err.ranges.headD { beg := [], fin := [] }).fin.length

instance (err : IdeError) : Decidable err.wf := by
  unfold IdeError.wf; infer_instance

/-- The publication the spec describes for one well-formed entry. -/
def expectedPublication (uri : String) (err : IdeError) :
    PublishDiagnosticsParams :=
  let rng := err.ranges.headD { beg := [], fin := [] }
  { uri := uri,
    diagnostics := [{ severity := DiagnosticSeverity.error,
                      range := Range.create
                        (Position.create (rng.beg.getD 0 0 - 1) (rng.beg.getD 1 0))
                        (Position.create (rng.fin.getD 0 0 - 1) (rng.fin.getD 1 0)),
                      message := err.message }] }

theorem failurePublication_eq (uri : String) (err : IdeError)
    (h : err.wf) :
    failurePublication uri err = some (expectedPublication uri err) := by
  obtain ⟨hne, hb, hf⟩ := h
  obtain ⟨rng, rs, hr⟩ := List.exists_cons_of_ne_nil hne
  rw [hr] at hb hf
  simp only [List.headD_cons] at hb hf
  have hb1 : rng.beg ≠ [] := by intro h0; rw [h0] at hb; simp at hb
  obtain ⟨b0, bt, hbeg⟩ := List.exists_cons_of_ne_nil hb1
  have hb2 : bt ≠ [] := by intro h0; rw [hbeg, h0] at hb; simp at hb
  obtain ⟨b1, bt', hbt⟩ := List.exists_cons_of_ne_nil hb2
  have hf1 : rng.fin ≠ [] := by intro h0; rw [h0] at hf; simp at hf
  obtain ⟨f0, ft, hfin⟩ := List.exists_cons_of_ne_nil hf1
  have hf2 : ft ≠ [] := by intro h0; rw [hfin, h0] at hf; simp at hf
  obtain ⟨f1, ft', hft⟩ := List.exists_cons_of_ne_nil hf2
  simp [failurePublication, expectedPublication, mkPosition, hr, hbeg, hbt,
    hfin, hft, Position.create, Range.create]

theorem handleIdeFailure_eq_map (uri : String) (resp : List IdeError)
    (hwf : ∀ err ∈ resp, err.wf) :
    handleIdeFailure uri resp = some (resp.map (expectedPublication uri)) := by
  induction resp with
  | nil => rfl
  | cons err rest ih =>
    have h1 := failurePublication_eq uri err (hwf err (by simp))
    have h2 := ih (fun e he => hwf e (by simp [he]))
    simp only [handleIdeFailure] at h2 ⊢
    rw [List.mapM_cons, h1, h2]
    rfl

/-- C1: for every failure response carrying an error array of length K
(well-formed entries), the failure handler publishes exactly K
error-severity diagnostics for the document URI, each built from only the
first range of its entry, with begin and end lines remapped from 1-based
to 0-based and the entry message as the diagnostic text. -/
theorem handleIdeFailure_one_diag_per_entry (uri : String)
    (resp : List IdeError) (hwf : ∀ err ∈ resp, err.wf) :
    handleIdeFailure uri resp = some (resp.map (expectedPublication uri)) ∧
    ∀ out, handleIdeFailure uri resp = some out →
      (out.flatMap (fun p => p.diagnostics)).length = resp.length := by
  have h := handleIdeFailure_eq_map uri resp hwf
  refine ⟨h, fun out hout => ?_⟩
  rw [h] at hout
  injection hout with hout
  subst hout
  clear h hwf
  induction resp with
  | nil => rfl
  | cons err rest ih => simp [expectedPublication, ih]

theorem handleIdeFailure_one_diag_per_entry_witness :
    handleIdeFailure "file:///a.fst"
        [{ message := "syntax error", ranges := [{ beg := [1, 4], fin := [1, 5] }] }]
      = some [{ uri := "file:///a.fst",
                diagnostics := [{ severity := DiagnosticSeverity.error,
                                  range := Range.create (Position.create 0 4)
                                             (Position.create 0 5),
                                  message := "syntax error" }] }] := by
  have h := handleIdeFailure_one_diag_per_entry "file:///a.fst"
    [{ message := "syntax error", ranges := [{ beg := [1, 4], fin := [1, 5] }] }]
    (by decide)
  exact h.1

/-- C2: the coordinate remap sends a 1-based (line, column) pair to
(line − 1, column), and for a fixed column it is injective in the line. -/
theorem mkPosition_unskews_line (line column : Int) (h : 1 ≤ line) :
    mkPosition [line, column] = some (Position.create (line - 1) column) ∧
    ∀ line' : Int, 1 ≤ line' →
      mkPosition [line, column] = mkPosition [line', column] → line = line' := by
  refine ⟨rfl, fun line' _ heq => ?_⟩
  simp [mkPosition, Position.create] at heq
  omega

theorem mkPosition_unskews_line_witness :
    mkPosition [3, 5] = some (Position.create 2 5) ∧
    ∀ line' : Int, 1 ≤ line' →
      mkPosition [3, 5] = mkPosition [line', 5] → (3 : Int) = line' :=
  mkPosition_unskews_line 3 5 (by norm_num)

/-- C10: the failure handler reads the first range of each entry and the
first two components of each position without guards; when every entry
has a nonempty ranges array whose positions have at least two components,
none of the option-returning accesses hits the error branch and the
handler emits exactly one diagnostic per entry, addressed to the document
URI. -/
theorem handleIdeFailure_accesses_in_bounds (uri : String)
    (resp : List IdeError) (hwf : ∀ err ∈ resp, err.wf) :
    ∃ out, handleIdeFailure uri resp = some out ∧
      out.length = resp.length ∧
      ∀ p ∈ out, p.uri = uri ∧ p.diagnostics.length = 1 := by
  refine ⟨resp.map (expectedPublication uri),
    handleIdeFailure_eq_map uri resp hwf, by simp, ?_⟩
  intro p hp
  obtain ⟨err, _, hpe⟩ := List.mem_map.mp hp
  subst hpe
  simp [expectedPublication]

theorem handleIdeFailure_accesses_in_bounds_witness :
    ∃ out, handleIdeFailure "file:///b.fst"
        [{ message := "err1", ranges := [{ beg := [2, 0], fin := [2, 7] }] },
         { message := "err2", ranges := [{ beg := [9, 1], fin := [10, 0] },
                                         { beg := [1, 1], fin := [1, 2] }] }]
      = some out ∧ out.length = 2 ∧
      ∀ p ∈ out, p.uri = "file:///b.fst" ∧ p.diagnostics.length = 1 := by
  exact handleIdeFailure_accesses_in_bounds "file:///b.fst" _ (by decide)

/-- C5: a routed progress message whose `contents.stage` is
`full-buffer-fragment-ok` makes the progress handler emit exactly one
statusOk notification, carrying the document URI and the range obtained
by remapping `contents.ranges.beg` and `contents.ranges.end` from
1-based to 0-based line numbering; a contents value with any other stage
produces no effect. -/
theorem handleIdeProgress_fragment_ok (uri : String) (c rng bj ej : Json)
    (b0 b1 e0 e1 : Int) (bs es : List Int)
    (hstage : c.fieldIs "stage" "full-buffer-fragment-ok" = true)
    (hrng : c.get "ranges" = some rng)
    (hbj : rng.get "beg" = some bj)
    (hbl : bj.asPosList = some (b0 :: b1 :: bs))
    (hej : rng.get "end" = some ej)
    (hel : ej.asPosList = some (e0 :: e1 :: es)) :
    handleIdeProgress uri (some c)
      = some [{ uri := uri,
                ranges := [Range.create (Position.create (b0 - 1) b1)
                             (Position.create (e0 - 1) e1)] }] ∧
    ∀ (uri' : String) (c' : Json),
      c'.fieldIs "stage" "full-buffer-fragment-ok" = false →
      handleIdeProgress uri' (some c') = some [] := by
  constructor
  · simp [handleIdeProgress, hstage, hrng, hbj, hbl, hej, hel, mkPosition,
      Position.create, Range.create]
  · intro uri' c' hs
    simp [handleIdeProgress, hs]

theorem handleIdeProgress_fragment_ok_witness :
    handleIdeProgress "file:///a.fst"
      (some (Json.obj
        [("stage", Json.str "full-buffer-fragment-ok"),
         ("ranges", Json.obj
           [("beg", Json.arr [Json.num 3, Json.num 0]),
            ("end", Json.arr [Json.num 5, Json.num 2])])]))
      = some [{ uri := "file:///a.fst",
                ranges := [Range.create (Position.create 2 0)
                             (Position.create 4 2)] }] :=
  (handleIdeProgress_fragment_ok "file:///a.fst"
    (Json.obj
      [("stage", Json.str "full-buffer-fragment-ok"),
       ("ranges", Json.obj
         [("beg", Json.arr [Json.num 3, Json.num 0]),
          ("end", Json.arr [Json.num 5, Json.num 2])])])
    (Json.obj [("beg", Json.arr [Json.num 3, Json.num 0]),
               ("end", Json.arr [Json.num 5, Json.num 2])])
    (Json.arr [Json.num 3, Json.num 0])
    (Json.arr [Json.num 5, Json.num 2])
    3 0 5 2 [] []
    rfl rfl rfl rfl rfl rfl).1

theorem handleOne_routes_parsed (parse : String → Option Json) (s : String)
    (hs : s ≠ "") (r : Json) (hp : parse s = some r) :
    ∃ ev, handleOneResponseForDocument parse s = some (some ev) := by
  unfold handleOneResponseForDocument
  rw [if_neg hs, hp]
  repeat' split
  all_goals first
    | exact ⟨_, rfl⟩
    | simp_all

theorem dispatchLines_routes_each (parse : String → Option Json)
    (segs : List String)
    (hne : ∀ s ∈ segs, s ≠ "")
    (hparse : ∀ s ∈ segs, (parse s).isSome = true) :
    (dispatchLines parse (segs ++ [""])).1.length = segs.length ∧
    (dispatchLines parse (segs ++ [""])).2 = false := by
  induction segs with
  | nil => exact ⟨rfl, rfl⟩
  | cons s rest ih =>
    obtain ⟨r, hr⟩ := Option.isSome_iff_exists.mp (hparse s (by simp))
    obtain ⟨ev, hev⟩ :=
      handleOne_routes_parsed parse s (hne s (by simp)) r hr
    have := ih (fun x hx => hne x (by simp [hx]))
      (fun x hx => hparse x (by simp [hx]))
    simp only [List.cons_append, dispatchLines, hev]
    simpa using this

/-- C3: a raw chunk splitting into N nonempty parseable segments followed
by a trailing empty segment makes the dispatcher perform exactly N
routings without aborting; an empty segment is skipped with no routing
and no other effect, wherever it occurs. -/
theorem dispatcher_routes_per_line (parse : String → Option Json)
    (data : String) (segs : List String)
    (hsplit : splitOnNewlines data = segs ++ [""])
    (hne : ∀ s ∈ segs, s ≠ "")
    (hparse : ∀ s ∈ segs, (parse s).isSome = true) :
    (handleFStarResponseForDocument parse data).1.length = segs.length ∧
    (handleFStarResponseForDocument parse data).2 = false ∧
    handleOneResponseForDocument parse "" = some none ∧
    ∀ pre post : List String,
      dispatchLines parse (pre ++ "" :: post)
        = dispatchLines parse (pre ++ post) := by
  have hmain := dispatchLines_routes_each parse segs hne hparse
  refine ⟨?_, ?_, rfl, ?_⟩
  · rw [handleFStarResponseForDocument, hsplit]; exact hmain.1
  · rw [handleFStarResponseForDocument, hsplit]; exact hmain.2
  · intro pre post
    induction pre with
    | nil => rfl
    | cons p pre ih =>
      simp only [List.cons_append, dispatchLines, List.append_eq, ih]

theorem dispatcher_routes_per_line_witness :
    (handleFStarResponseForDocument
        (fun s => if s = "lineA" then
            some (Json.obj [("kind", Json.str "protocol-info")])
          else none)
        "lineA\nlineA\n").1.length = 2 := by
  have h := dispatcher_routes_per_line
    (fun s => if s = "lineA" then
        some (Json.obj [("kind", Json.str "protocol-info")])
      else none)
    "lineA\nlineA\n" ["lineA", "lineA"] rfl (by decide) (by decide)
  exact h.1

/-- C6 counter-evidence: one unparsable line aborts dispatch — the
uncaught `JSON.parse` exception drops the remaining lines of the chunk,
so a valid line after a malformed one is never routed. -/
theorem dispatcher_crashes_on_bad_line :
    handleFStarResponseForDocument
        (fun s => if s = "good" then
            some (Json.obj [("kind", Json.str "protocol-info")])
          else none)
        "bad\ngood\n"
      = ([], true) := by
  rfl

theorem find?_setList (fields : List (String × Json)) (k : String) (v : Json) :
    ((Json.setField.setList fields k v).find? (fun p => p.1 = k))
      = some (k, v) := by
  induction fields with
  | nil => simp [Json.setField.setList]
  | cons p rest ih =>
    by_cases hk : p.1 = k
    · obtain ⟨k', v'⟩ := p
      simp only at hk
      simp [Json.setField.setList, hk]
    · obtain ⟨k', v'⟩ := p
      simp only at hk
      simp [Json.setField.setList, hk, List.find?_cons, ih]

theorem Json.get_setField (j : Json) (k : String) (v : Json)
    (h : j.isObj = true) : (j.setField k v).get k = some v := by
  cases j with
  | obj fields => simp [Json.setField, Json.get, find?_setList]
  | _ => simp [Json.isObj] at h

theorem lookup_setState_self (m : List (String × IDEState)) (uri : String)
    (v : IDEState) : lookupState (setState m uri v) uri = some v := by
  induction m with
  | nil => simp [setState, lookupState]
  | cons p rest ih =>
    by_cases hk : p.1 = uri
    · obtain ⟨k, v'⟩ := p
      simp only at hk
      simp [setState, hk, lookupState]
    · obtain ⟨k, v'⟩ := p
      simp only at hk
      simp only [setState, if_neg hk]
      simpa [lookupState, List.find?_cons, hk] using ih

theorem lookupState_cons (k : String) (v : IDEState)
    (rest : List (String × IDEState)) (uri : String) :
    lookupState ((k, v) :: rest) uri
      = if k = uri then some v else lookupState rest uri := by
  by_cases hk : k = uri <;> simp [lookupState, List.find?_cons, hk]

theorem mem_keys_of_lookup (m : List (String × IDEState)) (uri : String)
    (v : IDEState) (h : lookupState m uri = some v) :
    uri ∈ m.map Prod.fst := by
  induction m with
  | nil => simp [lookupState] at h
  | cons p rest ih =>
    obtain ⟨k, v'⟩ := p
    rw [lookupState_cons] at h
    by_cases hk : k = uri
    · simp [hk]
    · rw [if_neg hk] at h
      simp only [List.map_cons]
      exact List.mem_cons.mpr (Or.inr (ih h))

theorem keys_setState_of_mem (m : List (String × IDEState)) (uri : String)
    (v : IDEState) (h : uri ∈ m.map Prod.fst) :
    (setState m uri v).map Prod.fst = m.map Prod.fst := by
  induction m with
  | nil => simp at h
  | cons p rest ih =>
    obtain ⟨k, v'⟩ := p
    by_cases hk : k = uri
    · simp [setState, hk]
    · rw [List.map_cons] at h
      rcases List.mem_cons.mp h with h1 | h1
      · exact absurd h1.symm hk
      · simp [setState, hk, ih h1]

theorem keys_setState_of_not_mem (m : List (String × IDEState)) (uri : String)
    (v : IDEState) (h : uri ∉ m.map Prod.fst) :
    (setState m uri v).map Prod.fst = m.map Prod.fst ++ [uri] := by
  induction m with
  | nil => simp [setState]
  | cons p rest ih =>
    obtain ⟨k, v'⟩ := p
    have hk : k ≠ uri := by
      intro h0; exact h (by simp [h0])
    have hrest : uri ∉ rest.map Prod.fst := by
      intro h0; exact h (by simp [h0])
    simp [setState, hk, ih hrest]

theorem nodup_keys_setState (m : List (String × IDEState)) (uri : String)
    (v : IDEState) (h : (m.map Prod.fst).Nodup) :
    ((setState m uri v).map Prod.fst).Nodup := by
  by_cases hm : uri ∈ m.map Prod.fst
  · rwa [keys_setState_of_mem m uri v hm]
  · rw [keys_setState_of_not_mem m uri v hm]
    rw [List.nodup_append]
    refine ⟨h, List.nodup_singleton uri, ?_⟩
    intro a ha hb
    rw [List.mem_singleton] at hb
    subst hb
    exact hm ha

theorem keys_sendRequest (st : ServerState) (uri : String) (msg : Json) :
    ((sendRequestForDocument st uri msg).1.documentState.map Prod.fst)
      = st.documentState.map Prod.fst := by
  unfold sendRequestForDocument
  cases hlk : lookupState st.documentState uri with
  | none => rfl
  | some ds =>
    simp only
    exact keys_setState_of_mem _ _ _ (mem_keys_of_lookup _ _ _ hlk)

theorem sendRequestForDocument_step (st : ServerState) (uri : String)
    (pid : Nat) (n : Int) (msg : Json)
    (h : lookupState st.documentState uri
      = some { fstar_ide := pid, last_query_id := n }) :
    sendRequestForDocument st uri msg
      = ({ st with
           documentState :=
             setState st.documentState uri
               { fstar_ide := pid, last_query_id := n + 1 } },
         [(pid, msg.setField "query-id" (Json.str (toString (n + 1))))]) := by
  simp [sendRequestForDocument, h]

theorem sendMany_ids_from (uri : String) (pid : Nat) (msgs : List Json) :
    ∀ (st : ServerState) (n : Int),
      lookupState st.documentState uri
        = some { fstar_ide := pid, last_query_id := n } →
      (∀ m ∈ msgs, m.isObj = true) →
      ((sendMany st uri msgs).2).map (fun w => (w.2).get "query-id")
        = (List.range msgs.length).map
            (fun (i : Nat) => some (Json.str (toString (n + 1 + (i : Int))))) := by
  induction msgs with
  | nil => intro st n h hobj; rfl
  | cons msg rest ih =>
    intro st n h hobj
    have hstep := sendRequestForDocument_step st uri pid n msg h
    have hlk : lookupState
        (setState st.documentState uri { fstar_ide := pid, last_query_id := n + 1 }) uri
        = some { fstar_ide := pid, last_query_id := n + 1 } :=
      lookup_setState_self _ _ _
    have hrest := ih
      { st with
        documentState :=
          setState st.documentState uri
            { fstar_ide := pid, last_query_id := n + 1 } }
      (n + 1) hlk (fun m hm => hobj m (by simp [hm]))
    simp only [sendMany, hstep, List.map_append, hrest, List.map_cons,
      List.singleton_append, Json.get_setField msg _ _ (hobj msg (by simp)),
      List.length_cons, List.range_succ_eq_map, List.map_map]
    refine congrArg₂ List.cons (by norm_num) ?_
    apply List.map_congr_left
    intro i _
    simp only [Function.comp]
    congr 3
    push_cast
    ring

/-- C4: successive sends to the same session assign strictly increasing,
gapless query ids starting at 1 — with the counter initialized to 0 the
i-th send stamps the stringified value i, so the writes carry ids
"1", "2", ... with no value skipped or reused. -/
theorem sendRequest_ids_gapless (st : ServerState) (uri : String)
    (pid : Nat) (msgs : List Json)
    (h : lookupState st.documentState uri
      = some { fstar_ide := pid, last_query_id := 0 })
    (hobj : ∀ m ∈ msgs, m.isObj = true) :
    ((sendMany st uri msgs).2).map (fun w => (w.2).get "query-id")
      = (List.range msgs.length).map
          (fun (i : Nat) => some (Json.str (toString ((i : Int) + 1)))) := by
  rw [sendMany_ids_from uri pid msgs st 0 h hobj]
  apply List.map_congr_left
  intro i _
  congr 3
  ring

theorem sendRequest_ids_gapless_witness :
    ((sendMany
        { documentSettings := [],
          documentState := [("file:///a.fst", { fstar_ide := 7, last_query_id := 0 })],
          running := [7], nextPid := 8 }
        "file:///a.fst" [Json.obj [], Json.obj []]).2).map
        (fun w => (w.2).get "query-id")
      = (List.range 2).map
          (fun (i : Nat) => some (Json.str (toString ((i : Int) + 1)))) := by
  exact sendRequest_ids_gapless _ "file:///a.fst" 7 [Json.obj [], Json.obj []]
    rfl (by decide)

/-- C8: at the moment a send is performed, the session counter equals the
assigned query id minus one. -/
theorem send_counter_eq_id_minus_one (st : ServerState) (uri : String)
    (ds : IDEState) (msg : Json)
    (h : lookupState st.documentState uri = some ds)
    (hobj : msg.isObj = true) :
    ∃ q : Int,
      ((sendRequestForDocument st uri msg).2).map (fun w => (w.2).get "query-id")
        = [some (Json.str (toString q))] ∧
      ds.last_query_id = q - 1 := by
  refine ⟨ds.last_query_id + 1, ?_, by ring⟩
  simp [sendRequestForDocument, h, Json.get_setField msg _ _ hobj]

theorem send_counter_eq_id_minus_one_witness :
    ∃ q : Int,
      ((sendRequestForDocument
          { documentSettings := [],
            documentState := [("file:///a.fst", { fstar_ide := 3, last_query_id := 41 })],
            running := [3], nextPid := 4 }
          "file:///a.fst" (Json.obj [("query", Json.str "full-buffer")])).2).map
          (fun w => (w.2).get "query-id")
        = [some (Json.str (toString q))] ∧
      (41 : Int) = q - 1 := by
  exact send_counter_eq_id_minus_one _ "file:///a.fst"
    { fstar_ide := 3, last_query_id := 41 }
    (Json.obj [("query", Json.str "full-buffer")]) rfl rfl

theorem keys_validate (st : ServerState) (uri text : String) :
    ((validateFStarDocument st uri text).1.documentState.map Prod.fst)
      = st.documentState.map Prod.fst := by
  unfold validateFStarDocument
  exact keys_sendRequest st uri _

theorem keys_onDidOpen_nodup (st : ServerState) (uri text : String)
    (h : (st.documentState.map Prod.fst).Nodup) :
    ((onDidOpen st uri text).1.documentState.map Prod.fst).Nodup := by
  simp only [onDidOpen]
  rw [keys_sendRequest]
  exact nodup_keys_setState _ _ _ h

theorem reachable_keys_nodup (st : ServerState) (h : Reachable st) :
    (st.documentState.map Prod.fst).Nodup := by
  induction h with
  | init => simp [initialState]
  | open_ uri text _ ih => exact keys_onDidOpen_nodup _ uri text ih
  | close uri _ ih => exact ih
  | change uri text _ ih => rw [keys_validate]; exact ih

/-- C9: every reachable registry has at most one session per document URI
(the key list of the registry has no duplicates), and opening an already
open URI replaces the session in place: the key list is unchanged and
the URI now maps to the freshly spawned session (counter 1 after the
initial `vfs-add` send). -/
theorem registry_at_most_one_session (st : ServerState) (h : Reachable st) :
    (st.documentState.map Prod.fst).Nodup ∧
    ∀ uri text, uri ∈ st.documentState.map Prod.fst →
      ((onDidOpen st uri text).1.documentState.map Prod.fst)
        = st.documentState.map Prod.fst ∧
      lookupState (onDidOpen st uri text).1.documentState uri
        = some { fstar_ide := st.nextPid, last_query_id := 1 } := by
  refine ⟨reachable_keys_nodup st h, fun uri text hmem => ?_⟩
  constructor
  · simp only [onDidOpen]
    rw [keys_sendRequest]
    exact keys_setState_of_mem _ _ _ hmem
  · simp only [onDidOpen]
    rw [sendRequestForDocument_step _ uri st.nextPid 0 _
      (lookup_setState_self _ _ _)]
    exact lookup_setState_self _ _ _

theorem registry_at_most_one_session_witness :
    (((onDidOpen initialState "file:///a.fst" "module A").1.documentState.map
        Prod.fst).Nodup) ∧
    ∀ uri text,
      uri ∈ (onDidOpen initialState "file:///a.fst" "module A").1.documentState.map Prod.fst →
      ((onDidOpen (onDidOpen initialState "file:///a.fst" "module A").1 uri
          text).1.documentState.map Prod.fst)
        = (onDidOpen initialState "file:///a.fst" "module A").1.documentState.map Prod.fst ∧
      lookupState (onDidOpen (onDidOpen initialState "file:///a.fst" "module A").1 uri
          text).1.documentState uri
        = some { fstar_ide := (onDidOpen initialState "file:///a.fst" "module A").1.nextPid,
                 last_query_id := 1 } :=
  registry_at_most_one_session _
    (Reachable.open_ "file:///a.fst" "module A" Reachable.init)

/-- C7 counter-evidence: after opening a document and closing it, the
session registry still holds the session and the spawned subprocess is
still running — `onDidClose` only clears the settings cache. -/
theorem onDidClose_leaves_subprocess_running :
    lookupState
        (onDidClose (onDidOpen initialState "file:///a.fst" "let x = 1").1
          "file:///a.fst").documentState
        "file:///a.fst"
      = some { fstar_ide := 0, last_query_id := 1 } ∧
    (onDidClose (onDidOpen initialState "file:///a.fst" "let x = 1").1
        "file:///a.fst").running = [0] := by
  constructor <;> rfl

end FStarAssistant
